import Mathlib

/-!
Shallow embedding of the chat client in `src/src/App.tsx` (a single-page
Tigrinya chat UI over a remote generation endpoint), together with proofs
of the specified properties.

Modelling conventions:
* React state hooks (`messages`, `input`, `isLoading`) and the ref
  `chatInstance` become fields of `AppState`.
* `handleSend` is split at its single suspension point (the awaited
  `sendMessage` call): `handleSendStart` is the synchronous part up to and
  including issuing the call (it returns the issued request text, `none`
  when the guard makes the function return early), and `handleSendFinish`
  is the continuation that runs when the call resolves (`Except.ok text`,
  where `text` models `response.text` with `""` standing for an empty or
  absent text field, matching the JavaScript `||` falsiness check) or
  rejects (`Except.error ()`).
* `Date.now()` values are passed in as explicit `Nat` parameters.  The
  source stores `Date.now().toString()` / `(Date.now() + 1).toString()` as
  the message id; since `Nat.repr` is injective, the id is modelled by the
  underlying number, which preserves exactly the distinctness of id tokens.
* The remote conversation handle (`ai.chats.create({...})`) is opaque; it
  is modelled by its fixed configuration plus the list of turns it has
  accumulated, which is all the client can observe of it.
* The event-trace semantics `step`/`run` models the single-threaded event
  loop: typing (also a suggestion click, whose `onClick` is literally
  `setInput(suggestion)`), invoking `handleSend`, completion of an
  in-flight call, and `clearChat`.  `SysState.inflight` is the multiset of
  remote calls currently in flight.
-/

namespace ChatApp

/-- Role of a chat message, `'user' | 'model'` in the source. -/
inductive Role where
  | user : Role
  | model : Role
deriving DecidableEq, Repr

/-- The `Message` interface of `App.tsx`: role, content, and id.  The id in
the source is `Date.now().toString()` (resp. `(Date.now() + 1).toString()`);
it is modelled by the underlying numeric timestamp, as `toString` on `Nat`
is injective. -/
structure Message where
  role : Role
  content : String
  id : Nat
deriving DecidableEq, Repr

/-- The fixed persona/style instruction string `SYSTEM_INSTRUCTION`. -/
def SYSTEM_INSTRUCTION : String :=
  "You are \"ትግርኛ AI\" (Tigrinya AI), a helpful and friendly assistant. \nYour primary language is Tigrinya (ትግርኛ). \nYou should respond in Tigrinya by default, using the Ge\x27ez script. \nIf a user speaks to you in English or another language, you can respond in that language but try to offer a Tigrinya translation if relevant. \nBe culturally respectful and knowledgeable about Eritrean and Ethiopian culture where Tigrinya is spoken.\nKeep your responses concise and clear."

/-- The model identifier passed to `ai.chats.create`. -/
def GEMINI_MODEL : String := "gemini-3-flash-preview"

/-- Fallback content used when the call resolves but `response.text` is
falsy (empty or absent): `"ይቕሬታ፡ ጸገም ተፈጢሩ።"` ("Sorry, an error occurred"). -/
def EMPTY_REPLY_FALLBACK : String := "ይቕሬታ፡ ጸገም ተፈጢሩ።"

/-- Fallback content used in the `catch` branch when the call rejects:
"Sorry, could not connect to server. Please try again later." -/
def REJECTED_FALLBACK : String := "ይቕሬታ፡ ምስ ሰርቨር ምርኻብ ኣይተኻእለን። በጃኹም ደሓር ደጊምኩም ፈትኑ።"

/-- The three canned suggestion strings rendered as shortcut buttons. -/
def SUGGESTIONS : List String := ["ከመይ ኣለኻ?", "ትግርኛ ክመሃር ደልየ", "ጽቡቕ ግጥሚ ጸሓፈለይ"]

/-- JavaScript `String.prototype.trim()`: drops whitespace from both ends
of the string.  Defined by structural recursion on the character list so
that it evaluates on concrete inputs. -/
def jsTrim (s : String) : String :=
  ⟨((s.data.dropWhile Char.isWhitespace).reverse.dropWhile Char.isWhitespace).reverse⟩

/-- The remote conversation handle, modelled by its configuration (fixed at
creation) and the turns it has accumulated (message/reply pairs). -/
structure ChatSession where
  modelId : String
  systemInstruction : String
  turns : List String
deriving DecidableEq, Repr

/-- Creation of a fresh handle, `ai.chats.create({model, config})`, as done
once at startup and again inside `clearChat`. -/
def createChat : ChatSession :=
  { modelId := GEMINI_MODEL, systemInstruction := SYSTEM_INSTRUCTION, turns := [] }

/-- The handle after a successful `sendMessage({message})` returning `reply`:
the remote side has recorded the exchange. -/
def chatRecordTurn (c : ChatSession) (msg reply : String) : ChatSession :=
  { c with turns := c.turns ++ [msg, reply] }

/-- The client state: the `messages` list, the pending `input` text, the
`isLoading` flag (the spec's `awaitingReply`), and the chat handle ref. -/
structure AppState where
  messages : List Message
  input : String
  isLoading : Bool
  chat : ChatSession
deriving DecidableEq, Repr

/-- The initial state after mount: no messages, empty input, not loading,
and a freshly created chat handle (the startup `useEffect`). -/
def initApp : AppState :=
  { messages := [], input := "", isLoading := false, chat := createChat }

/-- Synchronous prefix of `handleSend`, up to the awaited `sendMessage`
call: the guard `if (!input.trim() || isLoading) return;`, then appending
the user message `{role: 'user', content: input, id: Date.now().toString()}`,
clearing the input, and setting `isLoading`.  Returns the new state and the
text passed to `sendMessage` (`none` when the guard fires and no call is
issued). -/
def handleSendStart (s : AppState) (t1 : Nat) : AppState × Option String :=
  if jsTrim s.input = "" ∨ s.isLoading then (s, none)
  else
    ({ s with
        messages := s.messages ++ [{ role := Role.user, content := s.input, id := t1 }],
        input := "",
        isLoading := true },
     some s.input)

/-- Continuation of `handleSend` after the awaited call completes.
`Except.ok text` models resolution with `response.text = text` (with `""`
for a falsy text, so the content is `response.text || EMPTY_REPLY_FALLBACK`);
`Except.error ()` models rejection, handled by the `catch` branch, which
appends the fixed `REJECTED_FALLBACK` message.  Both paths run the
`finally` block setting `isLoading` to `false`.  `t2` is the `Date.now()`
value at completion; both appended messages use id `t2 + 1`. -/
def handleSendFinish (s : AppState) (sent : String) (outcome : Except Unit String)
    (t2 : Nat) : AppState :=
  match outcome with
  | Except.ok text =>
      { s with
        messages := s.messages ++
          [{ role := Role.model,
             content := if text = "" then EMPTY_REPLY_FALLBACK else text,
             id := t2 + 1 }],
        isLoading := false,
        chat := chatRecordTurn s.chat sent (if text = "" then "" else text) }
  | Except.error _ =>
      { s with
        messages := s.messages ++
          [{ role := Role.model, content := REJECTED_FALLBACK, id := t2 + 1 }],
        isLoading := false }

/-- Whole `handleSend` run without interleaving: the synchronous prefix at
time `t1`, then (when a call was issued) the continuation with `outcome`
at time `t2`. -/
def handleSend (s : AppState) (t1 t2 : Nat) (outcome : Except Unit String) : AppState :=
  match handleSendStart s t1 with
  | (s1, none) => s1
  | (s1, some sent) => handleSendFinish s1 sent outcome t2

/-- `clearChat`: empties `messages` and replaces the chat handle with a
freshly created one; `input` and `isLoading` are not touched. -/
def clearChat (s : AppState) : AppState :=
  { s with messages := [], chat := createChat }

/-- UI events of the single-threaded event loop.  `typeEvt s` is
`setInput(s)` — both typing in the input box and clicking a suggestion
button (whose `onClick` is `setInput(suggestion)`).  `submitEvt t` invokes
`handleSend` at time `t` (Enter key or send button).  `resolveEvt o t`
is completion of the oldest in-flight call with outcome `o` at time `t`.
`clearEvt` is the header's clear button. -/
inductive Event where
  | typeEvt : String → Event
  | submitEvt : Nat → Event
  | resolveEvt : Except Unit String → Nat → Event
  | clearEvt : Event
deriving Repr

/-- Full system state: the client state plus the list of remote calls
currently in flight (their request texts, oldest first). -/
structure SysState where
  app : AppState
  inflight : List String
deriving DecidableEq, Repr

/-- The initial system state: freshly mounted client, nothing in flight. -/
def initSys : SysState := { app := initApp, inflight := [] }

/-- One event-loop step. -/
def step (σ : SysState) (e : Event) : SysState :=
  match e with
  | Event.typeEvt s => { σ with app := { σ.app with input := s } }
  | Event.submitEvt t =>
      match handleSendStart σ.app t with
      | (a, none) => { app := a, inflight := σ.inflight }
      | (a, some sent) => { app := a, inflight := σ.inflight ++ [sent] }
  | Event.resolveEvt o t =>
      match σ.inflight with
      | [] => σ
      | sent :: rest => { app := handleSendFinish σ.app sent o t, inflight := rest }
  | Event.clearEvt => { σ with app := clearChat σ.app }

/-- Running a list of events from a state. -/
def run (σ : SysState) : List Event → SysState
  | [] => σ
  | e :: es => run (step σ e) es

/-- A state is reachable when some event sequence produces it from the
initial state. -/
def Reachable (σ : SysState) : Prop := ∃ es, run initSys es = σ

/-- Invariant tying the `isLoading` flag to the in-flight calls: at most
one call is in flight, and `isLoading` is false exactly when none is. -/
def LoadInv (σ : SysState) : Prop :=
  σ.inflight.length ≤ 1 ∧ (σ.app.isLoading = false ↔ σ.inflight = [])

/-- Clock discipline under which ids stay unique: every timestamped event
(submission or resolution) happens at least 2 milliseconds after the
previous timestamped event (`lo` is the earliest time the next such event
may occur). -/
def TimesSpaced : Nat → List Event → Prop
  | _, [] => True
  | lo, Event.submitEvt t :: es => lo ≤ t ∧ TimesSpaced (t + 2) es
  | lo, Event.resolveEvt _ t :: es => lo ≤ t ∧ TimesSpaced (t + 2) es
  | lo, Event.typeEvt _ :: es => TimesSpaced lo es
  | lo, Event.clearEvt :: es => TimesSpaced lo es

/-- Id bookkeeping invariant: the ids in the transcript are pairwise
distinct and all below the bound `lo`. -/
def IdsOk (lo : Nat) (σ : SysState) : Prop :=
  ((σ.app.messages.map Message.id).Nodup) ∧ ∀ m ∈ σ.app.messages, m.id < lo

/-- Content invariant: every message in the transcript has non-empty
content. -/
def ContentsNonEmpty (σ : SysState) : Prop :=
  ∀ m ∈ σ.app.messages, m.content ≠ ""

theorem jsTrim_empty : jsTrim "" = "" := rfl

theorem ne_empty_of_jsTrim_ne_empty {s : String} (h : jsTrim s ≠ "") : s ≠ "" := by
  intro hs; exact h (hs ▸ jsTrim_empty)

theorem handleSendStart_of_guard {s : AppState} (t1 : Nat)
    (hin : jsTrim s.input ≠ "") (hidle : s.isLoading = false) :
    handleSendStart s t1 =
      ({ s with
          messages := s.messages ++ [{ role := Role.user, content := s.input, id := t1 }],
          input := "",
          isLoading := true },
       some s.input) := by
  unfold handleSendStart
  rw [if_neg]
  simp [hin, hidle]

/-- C1: for every input whose trimmed form is non-empty, submitted while
`isLoading` is false, `handleSend` appends exactly one user message with
exactly the submitted content immediately (and issues exactly one remote
call), and exactly one further message of model role after the call
resolves or rejects, so the transcript grows by exactly 2 regardless of
the outcome. -/
theorem claim_C1 (s : AppState) (t1 t2 : Nat) (outcome : Except Unit String)
    (hin : jsTrim s.input ≠ "") (hidle : s.isLoading = false) :
    (handleSendStart s t1).1.messages
        = s.messages ++ [{ role := Role.user, content := s.input, id := t1 }]
    ∧ (handleSendStart s t1).2 = some s.input
    ∧ (handleSendStart s t1).1.isLoading = true
    ∧ (∃ m : Message, m.role = Role.model ∧
        (handleSend s t1 t2 outcome).messages
          = s.messages ++ [{ role := Role.user, content := s.input, id := t1 }, m])
    ∧ (handleSend s t1 t2 outcome).messages.length = s.messages.length + 2
    ∧ (handleSend s t1 t2 outcome).isLoading = false := by
  have hstart := handleSendStart_of_guard t1 hin hidle
  have hsend : handleSend s t1 t2 outcome
      = handleSendFinish
          { s with
            messages := s.messages ++ [{ role := Role.user, content := s.input, id := t1 }],
            input := "",
            isLoading := true }
          s.input outcome t2 := by
    unfold handleSend
    rw [hstart]
  refine ⟨by rw [hstart], by rw [hstart], by rw [hstart], ?_, ?_, ?_⟩
  · cases outcome with
    | ok text =>
        exact ⟨{ role := Role.model,
                 content := if text = "" then EMPTY_REPLY_FALLBACK else text,
                 id := t2 + 1 }, rfl, by rw [hsend]; simp [handleSendFinish]⟩
    | error e =>
        exact ⟨{ role := Role.model, content := REJECTED_FALLBACK, id := t2 + 1 }, rfl,
          by rw [hsend]; simp [handleSendFinish]⟩
  · rw [hsend]; cases outcome <;> simp [handleSendFinish]
  · rw [hsend]; cases outcome <;> simp [handleSendFinish]

theorem claim_C1_witness :
    jsTrim "ሰላም" ≠ "" ∧
    (handleSend { initApp with input := "ሰላም" } 0 1 (Except.ok "ጽቡቕ")).messages.length
      = ({ initApp with input := "ሰላም" } : AppState).messages.length + 2 :=
  ⟨by decide,
   (claim_C1 { initApp with input := "ሰላም" } 0 1 (Except.ok "ጽቡቕ")
      (by decide) (by decide)).2.2.2.2.1⟩

/-- C2: when the remote call rejects, the error is absorbed by the catch
branch (`handleSendFinish` is total, so nothing propagates): the second
message appended by that submit has content equal to the fixed localized
fallback string `REJECTED_FALLBACK` verbatim, and `isLoading` is back to
false afterwards. -/
theorem claim_C2 (s : AppState) (t1 t2 : Nat)
    (hin : jsTrim s.input ≠ "") (hidle : s.isLoading = false) :
    (handleSend s t1 t2 (Except.error ())).messages
        = s.messages ++ [{ role := Role.user, content := s.input, id := t1 },
                         { role := Role.model, content := REJECTED_FALLBACK, id := t2 + 1 }]
    ∧ (handleSend s t1 t2 (Except.error ())).isLoading = false := by
  have hstart := handleSendStart_of_guard t1 hin hidle
  unfold handleSend
  rw [hstart]
  simp [handleSendFinish]

theorem claim_C2_witness :
    jsTrim "ሰላም" ≠ "" ∧
    (handleSend { initApp with input := "ሰላም" } 0 1 (Except.error ())).messages
      = [{ role := Role.user, content := "ሰላም", id := 0 },
         { role := Role.model, content := REJECTED_FALLBACK, id := 2 }] := by
  refine ⟨by decide, ?_⟩
  have h := (claim_C2 { initApp with input := "ሰላም" } 0 1 (by decide) (by decide)).1
  simpa using h

/-- C3 counterexample: the claim says a rejected call and a resolved call
with empty reply text produce a fallback message with the same fixed
string.  On the code they produce different strings: rejection appends
`REJECTED_FALLBACK` while an empty reply appends `EMPTY_REPLY_FALLBACK`. -/
theorem claim_C3_counterexample :
    ((handleSend { initApp with input := "ሰላም" } 0 0 (Except.error ())).messages.getLast?).map
        Message.content
      ≠ ((handleSend { initApp with input := "ሰላም" } 0 0 (Except.ok "")).messages.getLast?).map
        Message.content := by decide

/-- C3 amended: a rejected remote call and a successful call returning an
empty reply text both produce a fallback message with fixed content, but
the two fixed strings differ: rejection yields `REJECTED_FALLBACK`
("could not connect to server"), an empty reply yields
`EMPTY_REPLY_FALLBACK` ("an error occurred"). -/
theorem claim_C3_amended (s : AppState) (t1 t2 : Nat)
    (hin : jsTrim s.input ≠ "") (hidle : s.isLoading = false) :
    ((handleSend s t1 t2 (Except.error ())).messages.getLast?).map Message.content
        = some REJECTED_FALLBACK
    ∧ ((handleSend s t1 t2 (Except.ok "")).messages.getLast?).map Message.content
        = some EMPTY_REPLY_FALLBACK
    ∧ REJECTED_FALLBACK ≠ EMPTY_REPLY_FALLBACK := by
  have hstart := handleSendStart_of_guard t1 hin hidle
  refine ⟨?_, ?_, by decide⟩
  · unfold handleSend
    rw [hstart]
    simp [handleSendFinish]
  · unfold handleSend
    rw [hstart]
    simp [handleSendFinish]

theorem claim_C3_amended_witness :
    jsTrim "ሰላም" ≠ "" ∧
    ((handleSend { initApp with input := "ሰላም" } 0 0 (Except.error ())).messages.getLast?).map
        Message.content = some REJECTED_FALLBACK :=
  ⟨by decide,
   (claim_C3_amended { initApp with input := "ሰላም" } 0 0 (by decide) (by decide)).1⟩

/-- C4: `handleSend` invoked while `isLoading` is true, or while the pending
input is empty or whitespace-only, is a no-op: the state is returned
unchanged (so `input` and `isLoading` are untouched and no message is
appended), no remote call is issued, and the event-loop step leaves the
whole system state fixed. -/
theorem claim_C4 (σ : SysState) (t : Nat)
    (h : jsTrim σ.app.input = "" ∨ σ.app.isLoading = true) :
    handleSendStart σ.app t = (σ.app, none)
    ∧ step σ (Event.submitEvt t) = σ := by
  have h1 : handleSendStart σ.app t = (σ.app, none) := by
    unfold handleSendStart
    rw [if_pos]
    rcases h with h | h
    · exact Or.inl h
    · exact Or.inr (by simp [h])
  exact ⟨h1, by simp [step, h1]⟩

theorem claim_C4_witness :
    (jsTrim (" " : String) = "" ∨ ({ initApp with input := " " } : AppState).isLoading = true)
    ∧ step { app := { initApp with input := " " }, inflight := [] } (Event.submitEvt 5)
        = { app := { initApp with input := " " }, inflight := [] } :=
  ⟨Or.inl (by decide),
   (claim_C4 { app := { initApp with input := " " }, inflight := [] } 5 (Or.inl (by decide))).2⟩

/-- C5: `clearChat` always yields an empty message list and a freshly
configured chat handle, regardless of the prior state, and it is
idempotent: clearing twice gives the same state as clearing once. -/
theorem claim_C5 (s : AppState) :
    (clearChat s).messages = [] ∧ (clearChat s).chat = createChat
    ∧ clearChat (clearChat s) = clearChat s :=
  ⟨rfl, rfl, rfl⟩

theorem submit_noop (σ : SysState) (t : Nat)
    (h : jsTrim σ.app.input = "" ∨ σ.app.isLoading = true) :
    handleSendStart σ.app t = (σ.app, none) ∧ step σ (Event.submitEvt t) = σ := by
  have h1 : handleSendStart σ.app t = (σ.app, none) := by
    unfold handleSendStart
    rw [if_pos]
    rcases h with h | h
    · exact Or.inl h
    · exact Or.inr (by simp [h])
  exact ⟨h1, by simp [step, h1]⟩

theorem loadInv_init : LoadInv initSys := by
  constructor <;> simp [initSys, initApp]

theorem loadInv_step (σ : SysState) (e : Event) (h : LoadInv σ) : LoadInv (step σ e) := by
  obtain ⟨hlen, hiff⟩ := h
  cases e with
  | typeEvt s => exact ⟨hlen, hiff⟩
  | clearEvt => exact ⟨hlen, hiff⟩
  | submitEvt t =>
      by_cases hg : jsTrim σ.app.input = "" ∨ σ.app.isLoading
      · have h1 := (submit_noop σ t (by simpa using hg)).2
        rw [h1]
        exact ⟨hlen, hiff⟩
      · push_neg at hg
        have hidle : σ.app.isLoading = false := by
          cases hb : σ.app.isLoading
          · rfl
          · exact absurd hb (by simpa using hg.2)
        have hflight : σ.inflight = [] := hiff.mp hidle
        have h1 := handleSendStart_of_guard t hg.1 hidle
        simp only [step, h1]
        constructor
        · simp [hflight]
        · simp [hflight]
  | resolveEvt o t =>
      cases hfl : σ.inflight with
      | nil =>
          have h1 : step σ (Event.resolveEvt o t) = σ := by
            simp only [step, hfl]
          rw [h1]
          exact ⟨hlen, hiff⟩
      | cons sent rest =>
          have hrest : rest = [] := by
            rw [hfl] at hlen
            simpa using hlen
          simp only [step, hfl, hrest]
          constructor
          · simp
          · cases o <;> simp [handleSendFinish]

theorem loadInv_run (es : List Event) : ∀ σ : SysState, LoadInv σ → LoadInv (run σ es) := by
  induction es with
  | nil => intro σ h; exact h
  | cons e es ih => intro σ h; exact ih (step σ e) (loadInv_step σ e h)

theorem loadInv_reachable (σ : SysState) (h : Reachable σ) : LoadInv σ := by
  obtain ⟨es, hes⟩ := h
  exact hes ▸ loadInv_run es initSys loadInv_init

/-- C6: in every reachable state at most one remote call is in flight and
`isLoading` mirrors it; `handleSend` while loading is rejected (the system
state is unchanged, no call issued); from idle with non-blank input it
moves to loading and issues exactly one call; resolution while loading
returns to idle with nothing in flight; typing and clearing never change
the flag.  Turns are therefore strictly serialized. -/
theorem claim_C6 (σ : SysState) (h : Reachable σ) :
    σ.inflight.length ≤ 1
    ∧ (σ.app.isLoading = false ↔ σ.inflight = [])
    ∧ (σ.app.isLoading = true → ∀ t, step σ (Event.submitEvt t) = σ)
    ∧ (σ.app.isLoading = false → jsTrim σ.app.input ≠ "" → ∀ t,
        (step σ (Event.submitEvt t)).app.isLoading = true
        ∧ (step σ (Event.submitEvt t)).inflight = σ.inflight ++ [σ.app.input])
    ∧ (σ.app.isLoading = true → ∀ (o : Except Unit String) (t : Nat),
        (step σ (Event.resolveEvt o t)).app.isLoading = false
        ∧ (step σ (Event.resolveEvt o t)).inflight = [])
    ∧ (∀ s, (step σ (Event.typeEvt s)).app.isLoading = σ.app.isLoading)
    ∧ (step σ Event.clearEvt).app.isLoading = σ.app.isLoading := by
  obtain ⟨hlen, hiff⟩ := loadInv_reachable σ h
  refine ⟨hlen, hiff, ?_, ?_, ?_, ?_, ?_⟩
  · intro hload t
    exact (submit_noop σ t (Or.inr hload)).2
  · intro hidle hin t
    have h1 := handleSendStart_of_guard t hin hidle
    simp [step, h1]
  · intro hload o t
    have hne : σ.inflight ≠ [] := by
      intro hnil
      rw [hiff.mpr hnil] at hload
      exact Bool.false_ne_true hload
    cases hfl : σ.inflight with
    | nil => exact absurd hfl hne
    | cons sent rest =>
        have hrest : rest = [] := by
          rw [hfl] at hlen
          simpa using hlen
        simp only [step, hfl, hrest]
        cases o <;> simp [handleSendFinish]
  · intro s; rfl
  · rfl

theorem claim_C6_witness :
    ((run initSys [Event.typeEvt "ሰላም", Event.submitEvt 0]).inflight.length ≤ 1)
    ∧ ((run initSys [Event.typeEvt "ሰላም", Event.submitEvt 0]).app.isLoading = false
        ↔ (run initSys [Event.typeEvt "ሰላም", Event.submitEvt 0]).inflight = []) :=
  ⟨(claim_C6 (run initSys [Event.typeEvt "ሰላም", Event.submitEvt 0])
      ⟨[Event.typeEvt "ሰላም", Event.submitEvt 0], rfl⟩).1,
   (claim_C6 (run initSys [Event.typeEvt "ሰላም", Event.submitEvt 0])
      ⟨[Event.typeEvt "ሰላም", Event.submitEvt 0], rfl⟩).2.1⟩

/-- C8: every event-loop step either appends messages at the end of the
transcript (possibly none) or empties it entirely; no step modifies or
removes an individual existing message, so order is insertion order and
messages are immutable once created. -/
theorem claim_C8 (σ : SysState) (e : Event) :
    (∃ tail, (step σ e).app.messages = σ.app.messages ++ tail)
    ∨ (step σ e).app.messages = [] := by
  cases e with
  | typeEvt s => exact Or.inl ⟨[], by simp [step]⟩
  | clearEvt => exact Or.inr rfl
  | submitEvt t =>
      by_cases hg : jsTrim σ.app.input = "" ∨ σ.app.isLoading
      · have h1 := (submit_noop σ t (by simpa using hg)).2
        exact Or.inl ⟨[], by simp [h1]⟩
      · push_neg at hg
        have hidle : σ.app.isLoading = false := by
          cases hb : σ.app.isLoading
          · rfl
          · exact absurd hb (by simpa using hg.2)
        have h1 := handleSendStart_of_guard t hg.1 hidle
        exact Or.inl ⟨[{ role := Role.user, content := σ.app.input, id := t }],
          by simp [step, h1]⟩
  | resolveEvt o t =>
      cases hfl : σ.inflight with
      | nil => exact Or.inl ⟨[], by simp [step, hfl]⟩
      | cons sent rest =>
          cases o with
          | ok text =>
              exact Or.inl ⟨[{ role := Role.model,
                               content := (if text = "" then EMPTY_REPLY_FALLBACK else text),
                               id := t + 1 }],
                by simp [step, hfl, handleSendFinish]⟩
          | error err =>
              exact Or.inl ⟨[{ role := Role.model, content := REJECTED_FALLBACK, id := t + 1 }],
                by simp [step, hfl, handleSendFinish]⟩

/-- C9: selecting a suggested-prompt shortcut (its click handler is
`setInput(suggestion)`) sets the pending input to exactly that
suggestion's text and changes nothing else: no message is appended, no
remote call is issued, and `isLoading` and the chat handle are unchanged. -/
theorem claim_C9 (σ : SysState) (sug : String) (hsug : sug ∈ SUGGESTIONS) :
    (step σ (Event.typeEvt sug)).app.input = sug
    ∧ (step σ (Event.typeEvt sug)).app.messages = σ.app.messages
    ∧ (step σ (Event.typeEvt sug)).app.isLoading = σ.app.isLoading
    ∧ (step σ (Event.typeEvt sug)).app.chat = σ.app.chat
    ∧ (step σ (Event.typeEvt sug)).inflight = σ.inflight :=
  ⟨rfl, rfl, rfl, rfl, rfl⟩

theorem claim_C9_witness :
    ("ከመይ ኣለኻ?" ∈ SUGGESTIONS)
    ∧ (step initSys (Event.typeEvt "ከመይ ኣለኻ?")).app.input = "ከመይ ኣለኻ?"
    ∧ (step initSys (Event.typeEvt "ከመይ ኣለኻ?")).app.messages = initSys.app.messages :=
  ⟨by decide,
   (claim_C9 initSys "ከመይ ኣለኻ?" (by decide)).1,
   (claim_C9 initSys "ከመይ ኣለኻ?" (by decide)).2.1⟩

/-- C7 counterexample: message ids are `Date.now()`-derived, so they can
collide across submits.  Submit at time 10, resolve at time 10 (the model
message gets id 10 + 1 = 11), then submit again at time 11 (a perfectly
monotone clock): the transcript holds a model message and a user message
that share id 11. -/
theorem claim_C7_counterexample :
    ((run initSys [Event.typeEvt "ሰላም", Event.submitEvt 10,
        Event.resolveEvt (Except.ok "ጽቡቕ") 10, Event.typeEvt "ከመይ",
        Event.submitEvt 11]).app.messages.map Message.id) = [10, 11, 11]
    ∧ ¬ ((run initSys [Event.typeEvt "ሰላም", Event.submitEvt 10,
        Event.resolveEvt (Except.ok "ጽቡቕ") 10, Event.typeEvt "ከመይ",
        Event.submitEvt 11]).app.messages.map Message.id).Nodup := by
  constructor
  · decide
  · decide

theorem idsOk_mono {lo lo2 : Nat} {σ : SysState} (h : IdsOk lo σ) (hle : lo ≤ lo2) :
    IdsOk lo2 σ :=
  ⟨h.1, fun m hm => lt_of_lt_of_le (h.2 m hm) hle⟩

theorem idsOk_snoc {lo : Nat} {l : List Message} {m : Message}
    (hl : (l.map Message.id).Nodup) (hbound : ∀ x ∈ l, x.id < lo) (hm : lo ≤ m.id) :
    ((l ++ [m]).map Message.id).Nodup := by
  rw [List.map_append, List.map_singleton, List.nodup_append]
  refine ⟨hl, List.nodup_singleton _, ?_⟩
  intro a ha hb
  obtain ⟨x, hx, hxa⟩ := List.mem_map.mp ha
  have hmem : a = m.id := by simpa using hb
  have : a < lo := hxa ▸ hbound x hx
  omega

theorem idsOk_step_submit {lo t : Nat} {σ : SysState} (h : IdsOk lo σ) (hle : lo ≤ t) :
    IdsOk (t + 2) (step σ (Event.submitEvt t)) := by
  by_cases hg : jsTrim σ.app.input = "" ∨ σ.app.isLoading
  · have h1 := (submit_noop σ t (by simpa using hg)).2
    rw [h1]
    exact idsOk_mono h (by omega)
  · push_neg at hg
    have hidle : σ.app.isLoading = false := by
      cases hb : σ.app.isLoading
      · rfl
      · exact absurd hb (by simpa using hg.2)
    have h1 := handleSendStart_of_guard t hg.1 hidle
    simp only [step, h1]
    constructor
    · exact idsOk_snoc h.1 h.2 (by simpa using hle)
    · intro m hm
      rcases List.mem_append.mp hm with hm | hm
      · have := h.2 m hm; omega
      · have : m = { role := Role.user, content := σ.app.input, id := t } := by
          simpa using hm
        rw [this]
        show t < t + 2
        omega

theorem idsOk_step_resolve {lo t : Nat} {σ : SysState} {o : Except Unit String}
    (h : IdsOk lo σ) (hle : lo ≤ t) :
    IdsOk (t + 2) (step σ (Event.resolveEvt o t)) := by
  cases hfl : σ.inflight with
  | nil =>
      have h1 : step σ (Event.resolveEvt o t) = σ := by
        simp only [step, hfl]
      rw [h1]
      exact idsOk_mono h (by omega)
  | cons sent rest =>
      have hbound : ∀ x ∈ σ.app.messages, x.id < t + 1 := by
        intro x hx; have := h.2 x hx; omega
      cases o with
      | ok text =>
          simp only [step, hfl, handleSendFinish]
          constructor
          · exact idsOk_snoc h.1 hbound (by simp)
          · intro m hm
            rcases List.mem_append.mp hm with hm | hm
            · have := h.2 m hm; omega
            · have : m = { role := Role.model,
                           content := (if text = "" then EMPTY_REPLY_FALLBACK else text),
                           id := t + 1 } := by simpa using hm
              rw [this]
              show t + 1 < t + 2
              omega
      | error err =>
          simp only [step, hfl, handleSendFinish]
          constructor
          · exact idsOk_snoc h.1 hbound (by simp)
          · intro m hm
            rcases List.mem_append.mp hm with hm | hm
            · have := h.2 m hm; omega
            · have : m = { role := Role.model, content := REJECTED_FALLBACK,
                           id := t + 1 } := by simpa using hm
              rw [this]
              show t + 1 < t + 2
              omega

theorem idsOk_run (es : List Event) : ∀ (σ : SysState) (lo : Nat),
    IdsOk lo σ → TimesSpaced lo es → ∃ lo2, IdsOk lo2 (run σ es) := by
  induction es with
  | nil => intro σ lo h _; exact ⟨lo, h⟩
  | cons e es ih =>
      intro σ lo h hts
      cases e with
      | typeEvt s =>
          exact ih (step σ (Event.typeEvt s)) lo ⟨h.1, h.2⟩ hts
      | clearEvt =>
          refine ih (step σ Event.clearEvt) lo ⟨?_, ?_⟩ hts
          · simp [step, clearChat]
          · intro m hm
            simp [step, clearChat] at hm
      | submitEvt t =>
          exact ih (step σ (Event.submitEvt t)) (t + 2)
            (idsOk_step_submit h hts.1) hts.2
      | resolveEvt o t =>
          exact ih (step σ (Event.resolveEvt o t)) (t + 2)
            (idsOk_step_resolve h hts.1) hts.2

/-- C7 amended: ids are unique whenever successive timestamped events
(submissions and resolutions) are spaced at least 2 milliseconds apart;
without that clock discipline ids can collide across submits (see the
counterexample).  Within the spaced discipline, any two distinct messages
present together in the transcript carry distinct ids. -/
theorem claim_C7_amended (es : List Event) (h : TimesSpaced 0 es) :
    ((run initSys es).app.messages.map Message.id).Nodup := by
  obtain ⟨lo2, h2⟩ := idsOk_run es initSys 0
    ⟨by simp [initSys, initApp], by simp [initSys, initApp]⟩ h
  exact h2.1

theorem claim_C7_amended_witness :
    TimesSpaced 0 [Event.typeEvt "ሰላም", Event.submitEvt 0,
        Event.resolveEvt (Except.ok "ጽቡቕ") 2, Event.typeEvt "ከመይ", Event.submitEvt 4]
    ∧ ((run initSys [Event.typeEvt "ሰላም", Event.submitEvt 0,
        Event.resolveEvt (Except.ok "ጽቡቕ") 2, Event.typeEvt "ከመይ",
        Event.submitEvt 4]).app.messages.map Message.id).Nodup :=
  ⟨⟨by omega, by omega, by omega, trivial⟩,
   claim_C7_amended [Event.typeEvt "ሰላም", Event.submitEvt 0,
        Event.resolveEvt (Except.ok "ጽቡቕ") 2, Event.typeEvt "ከመይ", Event.submitEvt 4]
     ⟨by omega, by omega, by omega, trivial⟩⟩

theorem contentsNonEmpty_step (σ : SysState) (e : Event)
    (h : ContentsNonEmpty σ) : ContentsNonEmpty (step σ e) := by
  cases e with
  | typeEvt s => exact h
  | clearEvt =>
      intro m hm
      simp [step, clearChat] at hm
  | submitEvt t =>
      by_cases hg : jsTrim σ.app.input = "" ∨ σ.app.isLoading
      · have h1 := (submit_noop σ t (by simpa using hg)).2
        rw [h1]
        exact h
      · push_neg at hg
        have hidle : σ.app.isLoading = false := by
          cases hb : σ.app.isLoading
          · rfl
          · exact absurd hb (by simpa using hg.2)
        have h1 := handleSendStart_of_guard t hg.1 hidle
        intro m hm
        simp only [step, h1] at hm
        rcases List.mem_append.mp hm with hm | hm
        · exact h m hm
        · have : m = { role := Role.user, content := σ.app.input, id := t } := by
            simpa using hm
          rw [this]
          exact ne_empty_of_jsTrim_ne_empty hg.1
  | resolveEvt o t =>
      cases hfl : σ.inflight with
      | nil =>
          have h1 : step σ (Event.resolveEvt o t) = σ := by
            simp only [step, hfl]
          rw [h1]
          exact h
      | cons sent rest =>
          intro m hm
          cases o with
          | ok text =>
              simp only [step, hfl, handleSendFinish] at hm
              rcases List.mem_append.mp hm with hm | hm
              · exact h m hm
              · have : m = { role := Role.model,
                             content := (if text = "" then EMPTY_REPLY_FALLBACK else text),
                             id := t + 1 } := by simpa using hm
                rw [this]
                by_cases ht : text = "" <;> simp [ht, EMPTY_REPLY_FALLBACK]
          | error err =>
              simp only [step, hfl, handleSendFinish] at hm
              rcases List.mem_append.mp hm with hm | hm
              · exact h m hm
              · have : m = { role := Role.model, content := REJECTED_FALLBACK,
                             id := t + 1 } := by simpa using hm
                rw [this]
                simp [REJECTED_FALLBACK]

theorem contentsNonEmpty_run (es : List Event) :
    ∀ σ : SysState, ContentsNonEmpty σ → ContentsNonEmpty (run σ es) := by
  induction es with
  | nil => intro σ h; exact h
  | cons e es ih => intro σ h; exact ih (step σ e) (contentsNonEmpty_step σ e h)

/-- C10: in every reachable state, every message in the transcript has
non-empty content — a user message's content is the submitted input, whose
trimmed form the guard requires to be non-empty, and a model message's
content is either a non-empty reply text or one of the fixed non-empty
fallback strings (an empty reply is replaced by a fallback before
appending). -/
theorem claim_C10 (σ : SysState) (h : Reachable σ) :
    ∀ m ∈ σ.app.messages, m.content ≠ "" := by
  obtain ⟨es, hes⟩ := h
  exact hes ▸ contentsNonEmpty_run es initSys (by intro m hm; simp [initSys, initApp] at hm)

theorem claim_C10_witness :
    ({ role := Role.model, content := EMPTY_REPLY_FALLBACK, id := 2 } : Message).content ≠ "" :=
  claim_C10 (run initSys [Event.typeEvt "ሰላም", Event.submitEvt 0,
      Event.resolveEvt (Except.ok "") 1])
    ⟨[Event.typeEvt "ሰላም", Event.submitEvt 0, Event.resolveEvt (Except.ok "") 1], rfl⟩
    { role := Role.model, content := EMPTY_REPLY_FALLBACK, id := 2 }
    (by decide)

end ChatApp
